import Mathlib

/-
Verification of the unifile extraction pipeline's orchestration layer:
dispatch registry, row normalization, deduplication manifest, archive
depth guard, runtime option overlay and batch extraction, shallowly
embedded from the Python sources under src/unifile.
-/

namespace Unifile

/-- Raw file contents, one natural number per byte. -/
abbrev Bytes := List Nat

/-- A filesystem path, modelled by its string representation
(Python `pathlib.Path`). -/
structure Path where
  s : String
deriving DecidableEq

/-- Python `str.lower` (adequate for ASCII extensions). -/
def strLower (s : String) : String := String.mk (s.data.map Char.toLower)

/-- Python `str.lstrip(".")`: remove every leading dot. -/
def lstripDots (s : String) : String :=
  String.mk (s.data.dropWhile (fun c => c = '.'))

/-- Index of the last occurrence of a character in a character list
(Python `str.rfind`, returning `none` instead of -1). -/
def lastIdxOf (c : Char) : List Char → Option Nat
  | [] => none
  | x :: xs =>
    match lastIdxOf c xs with
    | some i => some (i + 1)
    | none => if x = c then some 0 else none

/-- Split a character list on a separator character (Python
`str.split(sep)` for a one-character separator). -/
def splitOnChar (sep : Char) : List Char → List (List Char)
  | [] => [[]]
  | c :: cs =>
    let r := splitOnChar sep cs
    if c = sep then [] :: r
    else
      match r with
      | [] => [[c]]
      | g :: gs => (c :: g) :: gs

/-- Final path component (Python `pathlib.PurePath.name`), for the plain
file paths the pipeline passes around: the part after the last slash. -/
def Path.name (p : Path) : String :=
  String.mk ((splitOnChar '/' p.s.data).getLastD p.s.data)

/-- Python `pathlib.PurePath.suffix`: the final component from its last
dot onward, provided that dot is neither the component's first nor its
last character; otherwise the empty string. -/
def Path.suffix (p : Path) : String :=
  let n := (Path.name p).data
  match lastIdxOf '.' n with
  | some i => if 0 < i ∧ i + 1 < n.length then String.mk (n.drop i) else ""
  | none => ""

/-- Model of `unifile.utils.utils.norm_ext`: `Path(p).suffix.lower().lstrip(".")`. -/
def norm_ext (p : Path) : String := lstripDots (strLower (Path.suffix p))

/-- Model of `unifile.extractors.base.Row`: the standardized extracted unit.
`metadata` is modelled as an association list of string keys and values,
which covers every metadata dict built on the code paths verified here. -/
structure Row where
  source_path : String
  source_name : String
  file_type : String
  unit_type : String
  unit_id : String
  content : String
  char_count : Nat
  metadata : List (String × String)
  status : String
  error : Option String
deriving DecidableEq

/-- Model of `unifile.extractors.base.make_row`. The Python signature types
`content` and `metadata` as `str`/`dict` but the body guards against
`None` (`content or ""`, `metadata or {}`), so both are modelled as
`Option`; `unit_id` arrives already stringified. -/
def make_row (path : Path) (file_type : String) (unit_type : String)
    (unit_id : String) (content : Option String)
    (metadata : Option (List (String × String)))
    (status : String) (error : Option String) : Row :=
  let txt := content.getD ""
  { source_path := path.s
    source_name := Path.name path
    file_type := file_type
    unit_type := unit_type
    unit_id := unit_id
    content := txt
    char_count := txt.length
    metadata := metadata.getD []
    status := status
    error := error }

/-- A cell of the output table: the value types that `Row.to_dict`
actually produces (strings, the integer `char_count`, the metadata map,
and Python `None` for a missing `error`/absent key). -/
inductive Cell
  | s (v : String)
  | n (v : Nat)
  | m (v : List (String × String))
  | null
deriving DecidableEq

/-- A Python dict of one table row: an association list from column name
to cell, keys unique and in insertion order. -/
abbrev RowDict := List (String × Cell)

/-- Model of `Row.to_dict` (`dataclasses.asdict`): all ten fields, in dataclass
declaration order. The JSON-serializability fallback for `metadata`
never fires for string-valued maps and is therefore not modelled. -/
def Row.to_dict (r : Row) : RowDict :=
  [("source_path", Cell.s r.source_path),
   ("source_name", Cell.s r.source_name),
   ("file_type", Cell.s r.file_type),
   ("unit_type", Cell.s r.unit_type),
   ("unit_id", Cell.s r.unit_id),
   ("content", Cell.s r.content),
   ("char_count", Cell.n r.char_count),
   ("metadata", Cell.m r.metadata),
   ("status", Cell.s r.status),
   ("error", match r.error with | some e => Cell.s e | none => Cell.null)]

/-- The canonical column list of `unifile.pipeline._rows_to_df`. -/
def CANONICAL_COLUMNS : List String :=
  ["source_path", "source_name", "file_type", "unit_type", "unit_id",
   "content", "char_count", "metadata", "status", "error"]

/-- The standardized output table: a fixed column list and one cell list
per row, aligned with the columns. -/
structure DataFrame where
  columns : List String
  rows : List (List Cell)
deriving DecidableEq

/-- The `pandas` steps of `_rows_to_df` on a list of row dicts:
`pd.DataFrame(data)` leaves a NaN cell where a dict lacks a key,
`df[c] = None` adds every canonical column missing from all dicts, and
`df[cols]` reindexes to the canonical order, so each output row holds,
per canonical column, the dict's value there or a null placeholder. -/
def mkDataFrame (data : List RowDict) : DataFrame :=
  { columns := CANONICAL_COLUMNS
    rows := data.map (fun d =>
      CANONICAL_COLUMNS.map (fun c => (d.lookup c).getD Cell.null)) }

/-- Model of `unifile.pipeline._rows_to_df`. -/
def rows_to_df (rows : List Row) : DataFrame :=
  mkDataFrame (rows.map Row.to_dict)

/-- The extension keys of `unifile.pipeline.REGISTRY` with the archive
and media extras installed (`REGISTRY_BASE` plus both optional blocks),
before any plugin registration. -/
def REGISTRY : List String :=
  ["pdf", "docx", "pptx",
   "xlsx", "xls", "xlsm", "xltx", "xltm", "csv", "tsv",
   "png", "jpg", "jpeg", "bmp", "tif", "tiff", "webp", "gif",
   "txt", "md", "rtf", "log",
   "html", "htm",
   "eml", "msg",
   "zip", "tar", "gz", "tgz", "bz2", "tbz", "xz",
   "epub", "json", "xml",
   "wav", "mp3", "m4a", "flac", "ogg", "webm", "aac",
   "mp4", "mov", "mkv"]

/-- Lexicographic order on code points (Python string comparison). -/
def charListLe : List Char → List Char → Bool
  | [], _ => true
  | _ :: _, [] => false
  | a :: as, b :: bs =>
    if a.toNat = b.toNat then charListLe as bs
    else decide (a.toNat < b.toNat)

/-- Python `<=` on strings. -/
def strLe (a b : String) : Bool := charListLe a.data b.data

/-- Insert a string into a sorted list (helper for `sorted`). -/
def insertSorted (x : String) : List String → List String
  | [] => [x]
  | y :: ys => if strLe x y then x :: y :: ys else y :: insertSorted x ys

/-- Python `sorted` on a list of strings (insertion sort). -/
def sortStrings : List String → List String
  | [] => []
  | x :: xs => insertSorted x (sortStrings xs)

/-- Model of `SUPPORTED_EXTENSIONS = sorted(REGISTRY.keys())`, as a function of
the current registry key list (the registry is a mutable global). -/
def supportedExtensions (reg : List String) : List String := sortStrings reg

/-- Model of `unifile.pipeline.detect_extractor`: the normalized extension when
it is a registry key, else `None`. `reg` is the current key list of the
mutable global `REGISTRY`. -/
def detect_extractor (reg : List String) (p : Path) : Option String :=
  let ext := norm_ext p
  if ext ∈ reg then some ext else none

/-- One line of the manifest JSON-Lines log, as written by
`Manifest.record`. JSON round-tripping of these flat records is lossless
and modelled as the identity on entries. -/
structure Entry where
  path : String
  hash : String
  bytes : Nat
  mime : String
  status : String
deriving DecidableEq

/-- External collaborators of the manifest and dispatcher:
`hashlib.sha256(...).hexdigest()` as an arbitrary deterministic digest
function, and `mimetypes.guess_type(path)[0] or ""` as a best-effort
MIME hint keyed on the path string. -/
structure Env where
  sha256 : Bytes → String
  mimeGuess : String → String

/-- Model of `unifile.processing.manifest.Manifest`: the backing log (file lines)
and the in-memory seen-hash set, the latter modelled as a list queried
by membership. -/
structure Manifest where
  log : List Entry
  hashes : List String
deriving DecidableEq

/-- Model of `Manifest.__post_init__`: replay every line of an existing log,
adding each truthy (non-empty) `hash` field to the seen-set. -/
def Manifest.load (log : List Entry) : Manifest :=
  { log := log
    hashes := (log.map Entry.hash).filter (fun h => h ≠ "") }

/-- Model of `Manifest._hash_file`: digest and byte size of the file's bytes. -/
def Manifest.hashFile (env : Env) (data : Bytes) : String × Nat :=
  (env.sha256 data, data.length)

/-- Model of `Manifest.check`: `(is_duplicate, hash, size)` for the file's
current bytes. -/
def Manifest.check (env : Env) (m : Manifest) (data : Bytes) :
    Bool × String × Nat :=
  let hs := Manifest.hashFile env data
  (m.hashes.contains hs.1, hs.1, hs.2)

/-- Model of `Manifest.record`: append one entry line to the log and add the hash
to the seen-set. -/
def Manifest.record (env : Env) (m : Manifest) (pathStr : String)
    (data : Bytes) (status : String) : Manifest :=
  let hs := Manifest.hashFile env data
  { log := m.log ++ [{ path := pathStr, hash := hs.1, bytes := hs.2,
                       mime := env.mimeGuess pathStr, status := status }]
    hashes := m.hashes ++ [hs.1] }

/-- A sequence of `Manifest.record` calls, each op being
`(path string, file bytes, status)`. -/
def Manifest.runRecords (env : Env) (m : Manifest)
    (ops : List (String × Bytes × String)) : Manifest :=
  ops.foldl (fun acc op => Manifest.record env acc op.1 op.2.1 op.2.2) m

/-- The call-fatal errors `extract_to_table` raises: the
`FileNotFoundError` for a missing/non-regular input and the
unsupported-extension `ValueError` carrying the path's suffix and the
sorted supported-extension list (the spec's `NotFound` and
`UnsupportedType`). -/
inductive DispatchError
  | NotFound (path : String)
  | UnsupportedType (suffix : String) (supported : List String)
deriving DecidableEq

/-- Model of `unifile.pipeline.extract_to_table` for a path input. `fs` maps a
path to its bytes when it exists and is a regular file; `extractor p`
is the behavior of `REGISTRY[ext]().extract(p)` on a fresh instance;
`reg` is the current registry key list. The runtime-option plumbing
(`set_runtime_options`, `_apply_runtime_to_instance`), which mutates no
state this control flow reads back, is modelled separately. Python's
`if not ext:` truthiness also rejects an empty-string extension. -/
def extract_to_table (env : Env) (reg : List String)
    (extractor : Path → List Row) (fs : Path → Option Bytes)
    (input : Path) (manifest : Option Manifest) :
    Except DispatchError (DataFrame × Option Manifest) :=
  match fs input with
  | none => Except.error (DispatchError.NotFound input.s)
  | some data =>
    match detect_extractor reg input with
    | none =>
      Except.error (DispatchError.UnsupportedType (Path.suffix input)
        (supportedExtensions reg))
    | some ext =>
      if ext = "" then
        Except.error (DispatchError.UnsupportedType (Path.suffix input)
          (supportedExtensions reg))
      else
        match manifest with
        | some m =>
          if (Manifest.check env m data).1 then
            Except.ok (rows_to_df [],
              some (Manifest.record env m input.s data "duplicate"))
          else
            let rows := extractor input
            Except.ok (rows_to_df rows,
              some (Manifest.record env m input.s data
                (if rows.any (fun r => r.status ≠ "ok") then "error" else "ok")))
        | none => Except.ok (rows_to_df (extractor input), none)

/-- Model of `unifile.extractors.archive_extractor.ArchiveExtractor._extract`.
The recursion-depth counter `UNIFILE_ARCHIVE_DEPTH` (default `"0"`) and
the limit `UNIFILE_ARCHIVE_MAX_DEPTH` (default `"3"`) are environment
variables holding integers written by this code itself, modelled as the
parsed numbers; `unpackAndWalk` is the behavior of the
unpack-walk-recurse-tag body below the depth guard. -/
def ArchiveExtractor.extractImpl (depth max_depth : Nat)
    (unpackAndWalk : Unit → List Row) (p : Path) : List Row :=
  if max_depth ≤ depth then
    [make_row p (strLower (lstripDots (Path.suffix p))) "file" "members"
      (some "") (some [("warning", "max_depth_exceeded")]) "error" none]
  else unpackAndWalk ()

/-- Model of `unifile.extractors.base.BaseExtractor.extract`. `fs` gives the
file's bytes when the path exists and is a regular file; `subImpl` is
the subclass `_extract`, returning either its row list or a raised
exception as `(type name, message)`; the internal `TypeError` raise for
a non-list `_extract` result is subsumed by the error branch (it is
caught by the same `except`) and cannot arise in this typed embedding. -/
def BaseExtractor.extract (fs : Path → Option Bytes)
    (subImpl : Path → Except (String × String) (List Row)) (p : Path) :
    List Row :=
  let file_type :=
    let s := strLower (lstripDots (Path.suffix p))
    if s = "" then "unknown" else s
  match fs p with
  | none =>
    [make_row p file_type "file" "body" (some "")
      (some [("reason", "not_found")]) "error"
      (some ("Not a file: " ++ p.s))]
  | some _ =>
    match subImpl p with
    | Except.ok rows => rows
    | Except.error e =>
      [make_row p file_type "file" "body" (some "")
        (some [("exception", e.1)]) "error" (some e.2)]

/-- Model of `unifile.pipeline.extract_paths`: `asyncio.gather` over
`asyncio.to_thread(extract_to_table, p, **kwargs)`, one task per input
path, with `gather` returning results positionally in the order of the
task list; each task is the synchronous `extract_to_table` on its path
(no manifest kwarg, so the tasks share no mutable state this model
reads). -/
def extract_paths (env : Env) (reg : List String)
    (extractor : Path → List Row) (fs : Path → Option Bytes)
    (paths : List Path) :
    List (Except DispatchError (DataFrame × Option Manifest)) :=
  paths.map (fun p => extract_to_table env reg extractor fs p none)

/-- Model of `unifile.pipeline._RUNTIME`: the process-wide runtime option dict
(its fixed key set). -/
structure Runtime where
  ocr_lang : String
  ocr_langs : String
  deterministic : Bool
  disable_pdf_ocr : Bool
  asr_model : Option String
  asr_device : Option String
  asr_compute_type : Option String
  table_as_cells : Bool
deriving DecidableEq

/-- The built-in defaults of `_RUNTIME`. -/
def RUNTIME_DEFAULTS : Runtime :=
  { ocr_lang := "eng", ocr_langs := "eng", deterministic := false,
    disable_pdf_ocr := false, asr_model := none, asr_device := none,
    asr_compute_type := none, table_as_cells := false }

/-- The keyword arguments of `set_runtime_options`, each `None` when not
supplied, in the Python signature's order. -/
structure RuntimeOpts where
  ocr_lang : Option String
  ocr_langs : Option String
  deterministic : Option Bool
  no_ocr : Option Bool
  asr_model : Option String
  whisper_model : Option String
  asr_device : Option String
  asr_compute_type : Option String
  table_as_cells : Option Bool
deriving DecidableEq

/-- Python `a if a is not None else b` on optional strings. -/
def firstSome (a b : Option String) : Option String :=
  match a with
  | some v => some v
  | none => b

/-- Model of `unifile.pipeline.set_runtime_options`, as the update it performs on
`_RUNTIME`. The trailing `_apply_runtime_env()` re-export to environment
variables reads the updated dict and changes nothing in it. -/
def set_runtime_options (o : RuntimeOpts) (r : Runtime) : Runtime :=
  let r1 := match o.ocr_langs with
    | some v => { r with ocr_langs := v }
    | none => r
  let r2 := match o.ocr_lang with
    | some v =>
      match o.ocr_langs with
      | none => { r1 with ocr_lang := v, ocr_langs := v }
      | some _ => { r1 with ocr_lang := v }
    | none => r1
  let r3 := match o.deterministic with
    | some b => { r2 with deterministic := b }
    | none => r2
  let r4 := match o.no_ocr with
    | some b => { r3 with disable_pdf_ocr := b }
    | none => r3
  let r5 := match firstSome o.whisper_model o.asr_model with
    | some v => { r4 with asr_model := some v }
    | none => r4
  let r6 := match o.asr_device with
    | some v => { r5 with asr_device := some v }
    | none => r5
  let r7 := match o.asr_compute_type with
    | some v => { r6 with asr_compute_type := some v }
    | none => r6
  match o.table_as_cells with
  | some b => { r7 with table_as_cells := b }
  | none => r7

/-- Claim C5: every Unit built by `make_row` has `char_count` equal to the
character length of its `content` (a null content becoming the empty
string) and a `metadata` map that is never null (a null argument becomes
the empty map). -/
theorem make_row_char_count_and_metadata (path : Path)
    (ft ut uid : String) (content : Option String)
    (md : Option (List (String × String))) (st : String)
    (err : Option String) :
    (make_row path ft ut uid content md st err).char_count
        = (make_row path ft ut uid content md st err).content.length
      ∧ (make_row path ft ut uid content md st err).content = content.getD ""
      ∧ (make_row path ft ut uid content md st err).metadata = md.getD [] :=
  ⟨rfl, rfl, rfl⟩

theorem mem_insertSorted (x y : String) (l : List String) :
    y ∈ insertSorted x l ↔ y = x ∨ y ∈ l := by
  induction l with
  | nil => simp [insertSorted]
  | cons z zs ih =>
    by_cases h : strLe x z = true
    · simp [insertSorted, h]
    · simp [insertSorted, h, ih]
      tauto

theorem mem_sortStrings (y : String) (l : List String) :
    y ∈ sortStrings l ↔ y ∈ l := by
  induction l with
  | nil => simp [sortStrings]
  | cons z zs ih => simp [sortStrings, mem_insertSorted, ih]

theorem zip_map_self_mem {α β : Type} (l : List α) (f : α → β) (c : α)
    (hc : c ∈ l) : (c, f c) ∈ l.zip (l.map f) := by
  induction l with
  | nil => cases hc
  | cons x xs ih =>
    rcases List.mem_cons.mp hc with rfl | hc
    · exact List.mem_cons_self _ _
    · exact List.mem_cons_of_mem _ (ih hc)

/-- Claim C2: for every list of Units (including the empty one),
`_rows_to_df` produces a table whose column list is exactly the canonical
ordered schema, with one output row per Unit whose cells follow the
canonical column order; on the underlying dict-to-table normalization, a
column absent from a row dict is filled with a null placeholder and the
output depends only on the dict's key-value mapping, not on the insertion
order of its fields. -/
theorem rows_to_df_canonical_schema :
    (∀ rows : List Row, (rows_to_df rows).columns = CANONICAL_COLUMNS)
  ∧ (∀ rows : List Row, (rows_to_df rows).rows
      = rows.map (fun r =>
          [Cell.s r.source_path, Cell.s r.source_name, Cell.s r.file_type,
           Cell.s r.unit_type, Cell.s r.unit_id, Cell.s r.content,
           Cell.n r.char_count, Cell.m r.metadata, Cell.s r.status,
           match r.error with | some e => Cell.s e | none => Cell.null]))
  ∧ (∀ d : RowDict, ∀ c : String, c ∈ CANONICAL_COLUMNS →
       d.lookup c = none →
       (c, Cell.null) ∈ CANONICAL_COLUMNS.zip ((mkDataFrame [d]).rows.getD 0 []))
  ∧ (∀ d₁ d₂ : RowDict, (∀ c : String, d₁.lookup c = d₂.lookup c) →
       mkDataFrame [d₁] = mkDataFrame [d₂]) := by
  refine ⟨fun rows => rfl, fun rows => ?_, fun d c hc hnone => ?_, fun d₁ d₂ h => ?_⟩
  · induction rows with
    | nil => rfl
    | cons r rs ih =>
      refine congrArg₂ List.cons rfl ?_
      simpa [rows_to_df, mkDataFrame] using ih
  · have := zip_map_self_mem CANONICAL_COLUMNS
      (fun c => (d.lookup c).getD Cell.null) c hc
    simpa [mkDataFrame, hnone] using this
  · unfold mkDataFrame
    simp only [List.map_cons, List.map_nil, DataFrame.mk.injEq, true_and]
    refine congrArg₂ List.cons ?_ rfl
    exact List.map_congr_left (fun c _ => by rw [h])

/-- Witness for `rows_to_df_canonical_schema`: a row dict missing the
`status` column gets a null placeholder at that column. -/
theorem rows_to_df_canonical_schema_witness :
    ("status", Cell.null) ∈ CANONICAL_COLUMNS.zip
      ((mkDataFrame [[("content", Cell.s "hi")]]).rows.getD 0 []) :=
  rows_to_df_canonical_schema.2.2.1 [("content", Cell.s "hi")] "status"
    (by decide) (by decide)

/-- Claim C10: dispatch resolution looks only at the path's final suffix -
the resolved extension is the lowercased last suffix stripped of its dot
(so `archive.tar.gz` resolves as `gz`, never `tar.gz`) - and
`detect_extractor` returns that extension exactly when it is a registry
key and `None` otherwise, in particular `None` for a path without suffix. -/
theorem detect_extractor_final_suffix_only :
    (∀ p : Path, norm_ext p = lstripDots (strLower (Path.suffix p)))
  ∧ (∀ (reg : List String) (p : Path),
      detect_extractor reg p
        = if norm_ext p ∈ reg then some (norm_ext p) else none)
  ∧ (∀ (reg : List String) (p : Path),
      Path.suffix p = "" → "" ∉ reg → detect_extractor reg p = none)
  ∧ norm_ext ⟨"archive.tar.gz"⟩ = "gz"
  ∧ detect_extractor REGISTRY ⟨"archive.tar.gz"⟩ = some "gz"
  ∧ detect_extractor REGISTRY ⟨"noext"⟩ = none := by
  refine ⟨fun p => rfl, fun reg p => rfl, fun reg p h hn => ?_,
    by decide, by decide, by decide⟩
  have hne : norm_ext p = "" := by rw [norm_ext, h]; rfl
  simp [detect_extractor, hne, hn]

/-- Witness for the hypothesis-bearing parts of
`detect_extractor_final_suffix_only`. -/
theorem detect_extractor_final_suffix_only_witness :
    detect_extractor REGISTRY ⟨"README"⟩ = none :=
  detect_extractor_final_suffix_only.2.2.1 REGISTRY ⟨"README"⟩
    (by decide) (by decide)

theorem extract_to_table_supported_step (env : Env) (reg : List String)
    (extractor : Path → List Row) (fs : Path → Option Bytes)
    (p : Path) (data : Bytes) (m : Manifest)
    (hfs : fs p = some data) (hreg : norm_ext p ∈ reg)
    (hne : norm_ext p ≠ "") :
    extract_to_table env reg extractor fs p (some m)
      = if (Manifest.check env m data).1 then
          Except.ok (rows_to_df [],
            some (Manifest.record env m p.s data "duplicate"))
        else
          Except.ok (rows_to_df (extractor p),
            some (Manifest.record env m p.s data
              (if (extractor p).any (fun r => r.status ≠ "ok")
               then "error" else "ok"))) := by
  unfold extract_to_table
  rw [hfs]
  simp [detect_extractor, hreg, hne]

theorem status_if_any_eq_if_all (l : List Row) :
    (if l.any (fun r => r.status ≠ "ok") then "error" else "ok")
      = (if l.all (fun r => r.status = "ok") then "ok" else "error") := by
  induction l with
  | nil => rfl
  | cons r rs ih =>
    by_cases hr : r.status = "ok"
    · simpa [List.any_cons, List.all_cons, hr] using ih
    · simp [List.any_cons, List.all_cons, hr]

/-- Claim C1: dispatching the same file twice through one manifest: the
first call runs the extractor, returns its normalized rows and appends
exactly one entry whose status is `ok` iff every produced Unit has
status `ok` (else `error`); the second call short-circuits for any
extractor behavior to an empty table plus exactly one `duplicate` entry,
so the log has grown by exactly two lines. -/
theorem extract_to_table_manifest_dedupe (env : Env) (reg : List String)
    (extractor : Path → List Row) (fs : Path → Option Bytes)
    (p1 p2 : Path) (data : Bytes) (m0 : Manifest)
    (hfs1 : fs p1 = some data) (hfs2 : fs p2 = some data)
    (hreg1 : norm_ext p1 ∈ reg) (hne1 : norm_ext p1 ≠ "")
    (hreg2 : norm_ext p2 ∈ reg) (hne2 : norm_ext p2 ≠ "")
    (hnew : m0.hashes.contains (env.sha256 data) = false) :
    ∃ m1 m2 : Manifest, ∃ e1 e2 : Entry,
      extract_to_table env reg extractor fs p1 (some m0)
          = Except.ok (rows_to_df (extractor p1), some m1)
        ∧ m1.log = m0.log ++ [e1]
        ∧ e1.status = (if (extractor p1).all (fun r => r.status = "ok")
                       then "ok" else "error")
        ∧ (∀ extractor2 : Path → List Row,
            extract_to_table env reg extractor2 fs p2 (some m1)
              = Except.ok (rows_to_df [], some m2))
        ∧ m2.log = m1.log ++ [e2]
        ∧ e2.status = "duplicate"
        ∧ m2.log.length = m0.log.length + 2
        ∧ (m0.log = [] → m2.log.length = 2) := by
  have hchk0 : (Manifest.check env m0 data).1 = false := by
    simpa [Manifest.check, Manifest.hashFile] using hnew
  have h1 := extract_to_table_supported_step env reg extractor fs p1 data m0
    hfs1 hreg1 hne1
  rw [hchk0, if_neg (by simp)] at h1
  set st := (if (extractor p1).any (fun r => r.status ≠ "ok")
             then "error" else "ok") with hst
  refine ⟨Manifest.record env m0 p1.s data st,
    Manifest.record env (Manifest.record env m0 p1.s data st) p2.s data
      "duplicate",
    ⟨p1.s, env.sha256 data, data.length, env.mimeGuess p1.s, st⟩,
    ⟨p2.s, env.sha256 data, data.length, env.mimeGuess p2.s, "duplicate"⟩,
    h1, rfl, ?_, ?_, rfl, rfl, ?_, ?_⟩
  · rw [hst]
    exact status_if_any_eq_if_all (extractor p1)
  · intro extractor2
    have hchk1 : (Manifest.check env (Manifest.record env m0 p1.s data st)
        data).1 = true := by
      simp [Manifest.check, Manifest.hashFile, Manifest.record,
        List.elem_eq_mem]
    have h2 := extract_to_table_supported_step env reg extractor2 fs p2 data
      (Manifest.record env m0 p1.s data st) hfs2 hreg2 hne2
    rw [hchk1, if_pos rfl] at h2
    exact h2
  · simp [Manifest.record]
  · intro hm0
    simp [Manifest.record, hm0]

/-- Witness for `extract_to_table_manifest_dedupe`: a concrete two-call
run over one text file content (under two path names) against an
initially empty manifest. -/
theorem extract_to_table_manifest_dedupe_witness :
    ∃ m1 m2 : Manifest, ∃ e1 e2 : Entry,
      extract_to_table ⟨fun _ => "h0", fun _ => "text/plain"⟩ ["txt"]
          (fun q => [make_row q "txt" "file" "body" (some "hi") (some [])
            "ok" none])
          (fun _ => some [104, 105]) ⟨"a.txt"⟩ (some ⟨[], []⟩)
          = Except.ok (rows_to_df ((fun q =>
              [make_row q "txt" "file" "body" (some "hi") (some [])
                "ok" none]) ⟨"a.txt"⟩), some m1)
        ∧ m1.log = (⟨[], []⟩ : Manifest).log ++ [e1]
        ∧ e1.status = (if (((fun q =>
              [make_row q "txt" "file" "body" (some "hi") (some [])
                "ok" none]) ⟨"a.txt"⟩).all (fun r => r.status = "ok"))
             then "ok" else "error")
        ∧ (∀ extractor2 : Path → List Row,
            extract_to_table ⟨fun _ => "h0", fun _ => "text/plain"⟩ ["txt"]
                extractor2 (fun _ => some [104, 105]) ⟨"b.txt"⟩ (some m1)
              = Except.ok (rows_to_df [], some m2))
        ∧ m2.log = m1.log ++ [e2]
        ∧ e2.status = "duplicate"
        ∧ m2.log.length = (⟨[], []⟩ : Manifest).log.length + 2
        ∧ ((⟨[], []⟩ : Manifest).log = [] → m2.log.length = 2) :=
  extract_to_table_manifest_dedupe ⟨fun _ => "h0", fun _ => "text/plain"⟩
    ["txt"] (fun q => [make_row q "txt" "file" "body" (some "hi") (some [])
      "ok" none])
    (fun _ => some [104, 105]) ⟨"a.txt"⟩ ⟨"b.txt"⟩ [104, 105] ⟨[], []⟩
    rfl rfl (by decide) (by decide) (by decide) (by decide) (by decide)

/-- Claim C3: dispatching an existing regular file whose normalized
extension is not a registry key fails with the unsupported-type error
carrying the full supported-extension list, and the result is the same
for every extractor behavior (no extractor is ever constructed or
invoked). -/
theorem extract_to_table_unsupported (env : Env) (reg : List String)
    (extractor extractor2 : Path → List Row) (fs : Path → Option Bytes)
    (p : Path) (data : Bytes) (manifest : Option Manifest)
    (hfs : fs p = some data) (hunsup : norm_ext p ∉ reg) :
    extract_to_table env reg extractor fs p manifest
        = Except.error (DispatchError.UnsupportedType (Path.suffix p)
            (supportedExtensions reg))
      ∧ (∀ e : String, e ∈ supportedExtensions reg ↔ e ∈ reg)
      ∧ extract_to_table env reg extractor fs p manifest
          = extract_to_table env reg extractor2 fs p manifest := by
  have herr : ∀ ex : Path → List Row,
      extract_to_table env reg ex fs p manifest
        = Except.error (DispatchError.UnsupportedType (Path.suffix p)
            (supportedExtensions reg)) := by
    intro ex
    unfold extract_to_table
    rw [hfs]
    simp [detect_extractor, hunsup]
  exact ⟨herr extractor, fun e => mem_sortStrings e reg,
    (herr extractor).trans (herr extractor2).symm⟩

/-- Witness for `extract_to_table_unsupported`: a `file.qqq` input
against the full default registry. -/
theorem extract_to_table_unsupported_witness :
    extract_to_table ⟨fun _ => "h0", fun _ => ""⟩ REGISTRY (fun _ => [])
        (fun _ => some [0]) ⟨"file.qqq"⟩ none
      = Except.error (DispatchError.UnsupportedType ".qqq"
          (supportedExtensions REGISTRY)) := by
  have h := (extract_to_table_unsupported ⟨fun _ => "h0", fun _ => ""⟩
    REGISTRY (fun _ => []) (fun _ => [⟨"", "", "", "", "", "", 0, [], "", none⟩])
    (fun _ => some [0]) ⟨"file.qqq"⟩ [0] none rfl (by decide)).1
  rw [h]
  rfl

/-- Claim C7: a write-then-reload round trip preserves duplicate
detection: after any sequence of `record` operations on a manifest
itself loaded from an arbitrary prior log, re-loading a fresh manifest
from the written log yields the same `check` duplicate decision for
every file content (the digest of real file bytes being non-empty). -/
theorem manifest_reload_roundtrip (env : Env)
    (hsha : ∀ bs : Bytes, env.sha256 bs ≠ "")
    (log0 : List Entry) (ops : List (String × Bytes × String)) :
    ∀ data : Bytes,
      (Manifest.check env
          (Manifest.load
            (Manifest.runRecords env (Manifest.load log0) ops).log)
          data).1
        = (Manifest.check env
            (Manifest.runRecords env (Manifest.load log0) ops) data).1 := by
  have main : ∀ (ops' : List (String × Bytes × String)) (m : Manifest),
      (∀ x : String, (Manifest.load m.log).hashes.contains x
        = m.hashes.contains x) →
      ∀ x : String,
        (Manifest.load (Manifest.runRecords env m ops').log).hashes.contains x
          = (Manifest.runRecords env m ops').hashes.contains x := by
    intro ops'
    induction ops' with
    | nil => intro m hm x; exact hm x
    | cons op rest ih =>
      intro m hm x
      have hstep : ∀ y : String,
          (Manifest.load (Manifest.record env m op.1 op.2.1 op.2.2).log).hashes.contains y
            = (Manifest.record env m op.1 op.2.1 op.2.2).hashes.contains y := by
        intro y
        have hmem : y ∈ (Manifest.load m.log).hashes ↔ y ∈ m.hashes := by
          simpa [List.elem_eq_mem, decide_eq_decide] using hm y
        have hlog : (Manifest.load
              (Manifest.record env m op.1 op.2.1 op.2.2).log).hashes
            = (Manifest.load m.log).hashes ++ [env.sha256 op.2.1] := by
          simp [Manifest.load, Manifest.record, Manifest.hashFile,
            List.filter_append, hsha op.2.1]
        rw [hlog]
        show ((Manifest.load m.log).hashes ++ [env.sha256 op.2.1]).contains y
          = (m.hashes ++ [env.sha256 op.2.1]).contains y
        simp only [List.elem_eq_mem, List.mem_append, decide_eq_decide]
        tauto
      exact ih (Manifest.record env m op.1 op.2.1 op.2.2) hstep x
  intro data
  have := main ops (Manifest.load log0) (fun x => rfl) (env.sha256 data)
  simpa [Manifest.check, Manifest.hashFile] using this

/-- Witness for `manifest_reload_roundtrip`: one record over a fresh
manifest, reloaded, queried with seen and unseen contents. -/
theorem manifest_reload_roundtrip_witness :
    (Manifest.check ⟨fun bs => String.mk ('h' :: (bs.map (fun b =>
          Char.ofNat (97 + b % 26)))), fun _ => ""⟩
        (Manifest.load
          (Manifest.runRecords ⟨fun bs => String.mk ('h' :: (bs.map (fun b =>
            Char.ofNat (97 + b % 26)))), fun _ => ""⟩
            (Manifest.load []) [("a.txt", [1, 2], "ok")]).log)
        [1, 2]).1
      = (Manifest.check ⟨fun bs => String.mk ('h' :: (bs.map (fun b =>
            Char.ofNat (97 + b % 26)))), fun _ => ""⟩
          (Manifest.runRecords ⟨fun bs => String.mk ('h' :: (bs.map (fun b =>
            Char.ofNat (97 + b % 26)))), fun _ => ""⟩
            (Manifest.load []) [("a.txt", [1, 2], "ok")]) [1, 2]).1 :=
  manifest_reload_roundtrip
    ⟨fun bs => String.mk ('h' :: (bs.map (fun b =>
      Char.ofNat (97 + b % 26)))), fun _ => ""⟩
    (fun _ hEq => List.noConfusion (congrArg String.data hEq))
    [] [("a.txt", [1, 2], "ok")] [1, 2]

/-- Claim C4: once the recursion-depth counter has reached the configured
maximum, `ArchiveExtractor._extract` returns exactly one Unit, with
status `error` and tagged `max_depth_exceeded`, and performs no
unpacking or member extraction: the result is the same for every
behavior of the body below the guard. -/
theorem archive_depth_guard (depth max_depth : Nat)
    (unpackAndWalk unpackAndWalk2 : Unit → List Row) (p : Path)
    (h : max_depth ≤ depth) :
    ∃ r : Row,
      ArchiveExtractor.extractImpl depth max_depth unpackAndWalk p = [r]
        ∧ r.status = "error"
        ∧ ("warning", "max_depth_exceeded") ∈ r.metadata
        ∧ ArchiveExtractor.extractImpl depth max_depth unpackAndWalk p
            = ArchiveExtractor.extractImpl depth max_depth unpackAndWalk2 p := by
  have hguard : ∀ u : Unit → List Row,
      ArchiveExtractor.extractImpl depth max_depth u p
        = [make_row p (strLower (lstripDots (Path.suffix p))) "file"
            "members" (some "") (some [("warning", "max_depth_exceeded")])
            "error" none] := by
    intro u
    unfold ArchiveExtractor.extractImpl
    rw [if_pos h]
  exact ⟨_, hguard unpackAndWalk, rfl, by simp [make_row],
    (hguard unpackAndWalk).trans (hguard unpackAndWalk2).symm⟩

/-- Witness for `archive_depth_guard`: an archive at depth 3 with the
default maximum 3, against two different unpack behaviors. -/
theorem archive_depth_guard_witness :
    ∃ r : Row,
      ArchiveExtractor.extractImpl 3 3 (fun _ => []) ⟨"deep.zip"⟩ = [r]
        ∧ r.status = "error"
        ∧ ("warning", "max_depth_exceeded") ∈ r.metadata
        ∧ ArchiveExtractor.extractImpl 3 3 (fun _ => []) ⟨"deep.zip"⟩
            = ArchiveExtractor.extractImpl 3 3
                (fun _ => [make_row ⟨"m.txt"⟩ "txt" "file" "body"
                  (some "x") (some []) "ok" none]) ⟨"deep.zip"⟩ :=
  archive_depth_guard 3 3 (fun _ => [])
    (fun _ => [make_row ⟨"m.txt"⟩ "txt" "file" "body" (some "x") (some [])
      "ok" none])
    ⟨"deep.zip"⟩ (by decide)

/-- Claim C6: `BaseExtractor.extract` never raises past its boundary,
for every path and every subclass `_extract` behavior: a missing or
non-regular path yields a single error Unit; an exception from
`_extract` yields a single error Unit carrying the exception message;
otherwise the `_extract` result is returned unchanged. -/
theorem base_extract_never_raises (fs : Path → Option Bytes)
    (subImpl : Path → Except (String × String) (List Row)) (p : Path) :
    (fs p = none →
      ∃ r : Row, BaseExtractor.extract fs subImpl p = [r]
        ∧ r.status = "error" ∧ r.error = some ("Not a file: " ++ p.s))
  ∧ (∀ (data : Bytes) (en msg : String),
      fs p = some data → subImpl p = Except.error (en, msg) →
      ∃ r : Row, BaseExtractor.extract fs subImpl p = [r]
        ∧ r.status = "error" ∧ r.error = some msg)
  ∧ (∀ (data : Bytes) (rows : List Row),
      fs p = some data → subImpl p = Except.ok rows →
      BaseExtractor.extract fs subImpl p = rows) := by
  refine ⟨fun hnone => ?_, fun data en msg hsome hraise => ?_,
    fun data rows hsome hok => ?_⟩
  · exact ⟨_, by unfold BaseExtractor.extract; rw [hnone], rfl, rfl⟩
  · exact ⟨_, by unfold BaseExtractor.extract; rw [hsome, hraise], rfl, rfl⟩
  · unfold BaseExtractor.extract
    rw [hsome, hok]

/-- Witness for `base_extract_never_raises`: all three branches at
concrete inputs (missing file, raising `_extract`, succeeding
`_extract`). -/
theorem base_extract_never_raises_witness :
    (∃ r : Row, BaseExtractor.extract (fun _ => none)
        (fun _ => Except.ok []) ⟨"a.txt"⟩ = [r]
        ∧ r.status = "error"
        ∧ r.error = some ("Not a file: " ++ (Path.mk "a.txt").s))
  ∧ (∃ r : Row, BaseExtractor.extract (fun _ => some [0])
        (fun _ => Except.error ("ValueError", "boom")) ⟨"a.txt"⟩ = [r]
        ∧ r.status = "error" ∧ r.error = some "boom")
  ∧ BaseExtractor.extract (fun _ => some [0])
        (fun _ => Except.ok [make_row ⟨"a.txt"⟩ "txt" "file" "body"
          (some "hi") (some []) "ok" none]) ⟨"a.txt"⟩
      = [make_row ⟨"a.txt"⟩ "txt" "file" "body" (some "hi") (some [])
          "ok" none] :=
  ⟨(base_extract_never_raises (fun _ => none) (fun _ => Except.ok [])
      ⟨"a.txt"⟩).1 rfl,
   (base_extract_never_raises (fun _ => some [0])
      (fun _ => Except.error ("ValueError", "boom")) ⟨"a.txt"⟩).2.1
      [0] "ValueError" "boom" rfl rfl,
   (base_extract_never_raises (fun _ => some [0])
      (fun _ => Except.ok [make_row ⟨"a.txt"⟩ "txt" "file" "body"
        (some "hi") (some []) "ok" none]) ⟨"a.txt"⟩).2.2
      [0] _ rfl rfl⟩

/-- Claim C8: `extract_paths` returns exactly one table per input path,
positionally: the i-th result is exactly what `extract_to_table` yields
on the i-th input path. -/
theorem extract_paths_order (env : Env) (reg : List String)
    (extractor : Path → List Row) (fs : Path → Option Bytes)
    (paths : List Path) :
    (extract_paths env reg extractor fs paths).length = paths.length
  ∧ ∀ (i : Nat) (h : i < paths.length),
      (extract_paths env reg extractor fs paths).get
          ⟨i, by simpa [extract_paths] using h⟩
        = extract_to_table env reg extractor fs (paths.get ⟨i, h⟩) none := by
  refine ⟨by simp [extract_paths], fun i h => ?_⟩
  simp [extract_paths]

/-- Witness for `extract_paths_order`: a three-path batch hitting the
second position. -/
theorem extract_paths_order_witness :
    (extract_paths ⟨fun _ => "h0", fun _ => ""⟩ ["txt"] (fun _ => [])
        (fun _ => some [0]) [⟨"a.txt"⟩, ⟨"b.txt"⟩, ⟨"c.txt"⟩]).length = 3
  ∧ (extract_paths ⟨fun _ => "h0", fun _ => ""⟩ ["txt"] (fun _ => [])
        (fun _ => some [0]) [⟨"a.txt"⟩, ⟨"b.txt"⟩, ⟨"c.txt"⟩]).get
        ⟨1, by decide⟩
      = extract_to_table ⟨fun _ => "h0", fun _ => ""⟩ ["txt"] (fun _ => [])
          (fun _ => some [0]) ⟨"b.txt"⟩ none :=
  ⟨(extract_paths_order ⟨fun _ => "h0", fun _ => ""⟩ ["txt"] (fun _ => [])
      (fun _ => some [0]) [⟨"a.txt"⟩, ⟨"b.txt"⟩, ⟨"c.txt"⟩]).1,
   (extract_paths_order ⟨fun _ => "h0", fun _ => ""⟩ ["txt"] (fun _ => [])
      (fun _ => some [0]) [⟨"a.txt"⟩, ⟨"b.txt"⟩, ⟨"c.txt"⟩]).2 1
      (by decide)⟩

/-- Counterexample to claim C9 as stated: supplying only `ocr_lang`
(with `ocr_langs` null) does not leave the `ocr_langs` setting at its
current value - the code mirrors `ocr_lang` into it. -/
theorem set_runtime_options_null_option_changed :
    (set_runtime_options
        ⟨some "fra", none, none, none, none, none, none, none, none⟩
        RUNTIME_DEFAULTS).ocr_langs
      ≠ RUNTIME_DEFAULTS.ocr_langs := by decide

/-- Claim C9 (amended): `set_runtime_options` merges exactly the
non-null options supplied and null options leave their settings
unchanged, except that a non-null `ocr_lang` with a null `ocr_langs`
also sets `ocr_langs` to the `ocr_lang` value, and that `whisper_model`
and `asr_model` both target the single `asr_model` setting with
`whisper_model` taking precedence when both are non-null. -/
theorem set_runtime_options_merge (o : RuntimeOpts) (r : Runtime) :
    (set_runtime_options o r).ocr_lang = o.ocr_lang.getD r.ocr_lang
  ∧ (set_runtime_options o r).ocr_langs
      = (firstSome o.ocr_langs o.ocr_lang).getD r.ocr_langs
  ∧ (set_runtime_options o r).deterministic
      = o.deterministic.getD r.deterministic
  ∧ (set_runtime_options o r).disable_pdf_ocr
      = o.no_ocr.getD r.disable_pdf_ocr
  ∧ (set_runtime_options o r).asr_model
      = (match firstSome o.whisper_model o.asr_model with
         | some v => some v
         | none => r.asr_model)
  ∧ (set_runtime_options o r).asr_device
      = (match o.asr_device with
         | some v => some v
         | none => r.asr_device)
  ∧ (set_runtime_options o r).asr_compute_type
      = (match o.asr_compute_type with
         | some v => some v
         | none => r.asr_compute_type)
  ∧ (set_runtime_options o r).table_as_cells
      = o.table_as_cells.getD r.table_as_cells := by
  obtain ⟨f1, f2, f3, f4, f5, f6, f7, f8, f9⟩ := o
  cases f1 <;> cases f2 <;> cases f3 <;> cases f4 <;> cases f6 <;>
    cases f7 <;> cases f8 <;> cases f9 <;> cases f5 <;>
    simp [set_runtime_options, firstSome, Option.getD]

end Unifile
